import Mathlib

set_option maxRecDepth 100000

deriving instance DecidableEq for Except

/-!
Shallow embedding of the job scheduling and queue engine of the
youtube-video-shorts repository, and proofs about its behaviour.

The embedding follows the store-backed variant of the code:
`app/services/queue.py` (class `JobQueue`), `app/services/simple_db.py`
(store helpers) and `app/api/v1/routes/jobs.py` (retry route).
Timestamps are modelled as naturals, floats that only ever hold integral
checkpoint values (progress) as naturals, and the database as a list of
job rows queried and updated by primary key (first matching row).
Fields of the `Job` table that no operation modelled here reads or
writes (options, video metadata, audio_file_path, transcript_segments,
analysis_results, total_file_size, processing_time, updated_at,
timeout_at) are elided from the record.
-/

namespace VideoShorts

/-- Job status enumeration from `app/models/job_models.py` (`JobStatus`). -/
inductive JobStatus where
  | pending
  | queued
  | processing
  | completed
  | failed
  | cancelled
deriving DecidableEq, Repr

/-- One generated clip, as written by `queue.py` `_process_job`
(`{"start": .., "end": .., "title": ..}`). -/
structure Clip where
  clipStart : Nat
  clipStop : Nat
  title : String
deriving DecidableEq, Repr

/-- A row of the `jobs` table (`app/models/job_models.py`, class `Job`),
restricted to the fields the modelled operations touch. -/
structure Job where
  id : String
  youtube_url : String
  job_type : String
  status : JobStatus
  progress : Nat
  priority : Nat
  created_at : Nat
  started_at : Option Nat
  completed_at : Option Nat
  worker_id : Option String
  error_message : Option String
  retry_count : Nat
  max_retries : Nat
  video_title : Option String
  transcript : Option String
  generated_clips : Option (List Clip)
  output_files : Option (List String)
deriving DecidableEq, Repr

/-- A row of the `job_events` table (`app/models/job_models.py`,
class `JobEvent`).  `queue.py` `_add_job_event` passes the stage name
inside `data={"stage": stage}`; that payload entry is modelled as
`data_stage`. -/
structure JobEvent where
  job_id : String
  event_type : String
  message : String
  progress : Option Nat
  data_stage : Option String
deriving DecidableEq, Repr

/-- The job store: the rows of the `jobs` table. -/
abbrev Store := List Job

/-- `simple_db.get_job`: fetch a row by primary key. -/
def getJob (store : Store) (jobId : String) : Option Job :=
  store.find? (fun j => decide (j.id = jobId))

/-- Apply an update to the row with the given primary key (the first
matching row; primary keys are unique in the database). -/
def updateRow (store : Store) (jobId : String) (f : Job → Job) : Store :=
  match store with
  | [] => []
  | j :: rest =>
      if j.id = jobId then f j :: rest else j :: updateRow rest jobId f

/-- Comparison used by `simple_db.list_jobs`:
`order_by(Job.created_at.desc())`. -/
def CreatedDesc (a b : Job) : Prop :=
  b.created_at ≤ a.created_at

instance : DecidableRel CreatedDesc :=
  fun a b => Nat.decLe b.created_at a.created_at

instance : IsTotal Job CreatedDesc :=
  ⟨fun a b => by unfold CreatedDesc; omega⟩

instance : IsTrans Job CreatedDesc :=
  ⟨fun a b c => by unfold CreatedDesc; omega⟩

/-- `simple_db.list_jobs`: the `limit` most recent jobs, ordered by
`created_at` descending (a stable sort, mirroring the database
ordering). -/
def list_jobs (store : Store) (limit : Nat) : List Job :=
  (List.insertionSort CreatedDesc store).take limit

/-- Modelled from the spec: `update_job_status` is imported by
`app/services/queue.py` from `app.services.simple_db`, but no definition
of it exists anywhere in the source tree (`simple_db.py` defines only
`update_job`).  Per the spec's Job Store contract it is
`update(id, partial-fields) -> bool` (atomic per-row): it sets exactly
the fields the caller passes on the row with the given id and reports
whether the id was found, mirroring `simple_db.update_job`'s
only-update-fields-that-were-passed behaviour.  The two call sites pass
a status and, for the claim step, a `started_at`. -/
def update_job_status (store : Store) (jobId : String) (status : JobStatus)
    (startedAt : Option Nat) : Bool × Store :=
  match getJob store jobId with
  | none => (false, store)
  | some _ =>
      (true, updateRow store jobId (fun j =>
        { j with
            status := status
            started_at := match startedAt with
              | none => j.started_at
              | some t => some t }))

/-- `JobQueue.enqueue_job`: set the job's status to QUEUED; if the id is
not found the failure is logged and the call returns with no change. -/
def enqueue_job (store : Store) (jobId : String) : Store :=
  (update_job_status store jobId JobStatus.queued none).2

/-- Sort key of `JobQueue.get_next_job`:
`queued_jobs.sort(key=lambda j: (-j.priority, j.created_at))`, i.e. `a`
comes no later than `b` when `a` has higher priority, or equal priority
and no later creation time. -/
def ClaimOrder (a b : Job) : Prop :=
  b.priority < a.priority ∨
    (a.priority = b.priority ∧ a.created_at ≤ b.created_at)

instance : DecidableRel ClaimOrder := fun a b => by
  unfold ClaimOrder; exact inferInstance

instance : IsTotal Job ClaimOrder :=
  ⟨fun a b => by unfold ClaimOrder; omega⟩

instance : IsTrans Job ClaimOrder :=
  ⟨fun a b c hab hbc => by unfold ClaimOrder at hab hbc ⊢; omega⟩

/-- The queued jobs `JobQueue.get_next_job` considers:
`list_jobs(limit=100)` filtered to status QUEUED. -/
def queuedWindow (store : Store) : List Job :=
  (list_jobs store 100).filter (fun j => decide (j.status = JobStatus.queued))

/-- The job `JobQueue.get_next_job` selects: the head of the queued
window stably sorted by the claim key. -/
def selectNextJob (store : Store) : Option Job :=
  (List.insertionSort ClaimOrder (queuedWindow store)).head?

/-- `JobQueue.get_next_job`: select a queued job, then
`update_job_status(job.id, PROCESSING, started_at=utcnow())`; the job
object fetched before the update is returned when the update reports
success. -/
def get_next_job (store : Store) (now : Nat) : Option Job × Store :=
  match selectNextJob store with
  | none => (none, store)
  | some job =>
      let r := update_job_status store job.id JobStatus.processing (some now)
      if r.1 then (some job, r.2) else (none, r.2)

/-- The simulated stage table of `JobQueue._process_job`:
`(stage, progress, message)` triples. -/
def stages : List (String × Nat × String) :=
  [("initializing", 10, "Initializing job..."),
   ("downloading", 30, "Downloading video..."),
   ("extracting_audio", 50, "Extracting audio..."),
   ("transcribing", 70, "Transcribing audio..."),
   ("analyzing", 85, "Analyzing content..."),
   ("finalizing", 95, "Finalizing results..."),
   ("completed", 100, "Job completed successfully!")]

/-- The progress event `_process_job` emits for one stage entry
(`_add_job_event(job.id, "progress", message, progress=progress,
data={"stage": stage})`). -/
def mkProgressEvent (jobId : String) (st : String × Nat × String) : JobEvent :=
  { job_id := jobId
    event_type := "progress"
    message := st.2.2
    progress := some st.2.1
    data_stage := some st.1 }

/-- The error event `_process_job` emits when the try block raises
(`_add_job_event(job.id, "error", f"Job failed: {str(e)}")` — no
progress value, no data payload). -/
def mkErrorEvent (jobId : String) (msg : String) : JobEvent :=
  { job_id := jobId
    event_type := "error"
    message := "Job failed: " ++ msg
    progress := none
    data_stage := none }

/-- The stage loop of `_process_job`.  Each iteration checks
`self.is_running`, emits the stage's progress event, then performs the
stage's work (in the source a suspension the external world can fail;
`exec` injects that outcome).  A raised error aborts the loop and is
reported for the except branch; `running = false` breaks out of the
loop with no error. -/
def runStages (running : Bool) (exec : String → Except String Unit)
    (jobId : String) : List (String × Nat × String) → List JobEvent × Option String
  | [] => ([], none)
  | st :: rest =>
      if running then
        match exec st.1 with
        | Except.ok _ =>
            let r := runStages running exec jobId rest
            (mkProgressEvent jobId st :: r.1, r.2)
        | Except.error e => ([mkProgressEvent jobId st], some e)
      else ([], none)

/-- The sample clips `_process_job` writes on success. -/
def sampleClips : List Clip :=
  [{ clipStart := 0, clipStop := 30, title := "Introduction" },
   { clipStart := 30, clipStop := 60, title := "Main Content" }]

/-- `JobQueue._process_job`: assign `worker_id` on the in-memory job,
run the stage loop, then either mark the job COMPLETED with progress
100, `completed_at` and sample results, or (except branch) mark it
FAILED with the error captured verbatim in `error_message`,
`completed_at` set, and an error event appended.  The returned pair is
the job object the finally branch commits and the events emitted. -/
def process_job (running : Bool) (exec : String → Except String Unit)
    (workerId : String) (job : Job) (now : Nat) : Job × List JobEvent :=
  let job0 := { job with worker_id := some workerId }
  let r := runStages running exec job0.id stages
  match r.2 with
  | none =>
      ({ job0 with
          status := JobStatus.completed
          progress := 100
          completed_at := some now
          video_title := some ("Sample Video - " ++ job0.id.take 8)
          transcript := some "This is a sample transcript."
          generated_clips := some sampleClips }, r.1)
  | some e =>
      ({ job0 with
          status := JobStatus.failed
          error_message := some e
          completed_at := some now }, r.1 ++ [mkErrorEvent job0.id e])

/-- `JobQueue.cancel_job`: fetch the row; missing id or a terminal
status (COMPLETED, FAILED, CANCELLED) yields `false` with no change;
otherwise the row becomes CANCELLED with `completed_at` set and, when a
reason is given, the reason stored in `error_message`. -/
def cancel_job (store : Store) (jobId : String) (reason : Option String)
    (now : Nat) : Bool × Store :=
  match getJob store jobId with
  | none => (false, store)
  | some j =>
      if j.status ∈ [JobStatus.completed, JobStatus.failed, JobStatus.cancelled] then
        (false, store)
      else
        (true, updateRow store jobId (fun r =>
          { r with
              status := JobStatus.cancelled
              completed_at := some now
              error_message := match reason with
                | some s => some s
                | none => r.error_message }))

/-- Errors raised by the HTTP routes in `app/api/v1/routes/jobs.py`:
404 job-not-found, or a 400 invalid-transition rejection with its
detail message. -/
inductive ApiError where
  | notFound
  | invalidTransition (detail : String)
deriving DecidableEq, Repr

/-- `retry_job` route (`app/api/v1/routes/jobs.py`): only FAILED jobs
may be retried; beyond `max_retries` the request is rejected unless
`force` is set; otherwise the row is reset (status PENDING,
`error_message` cleared, `retry_count` incremented, progress 0,
`started_at`/`completed_at` cleared) and the job is re-enqueued via
`job_queue.enqueue_job`, which moves it to QUEUED. -/
def retry_job (store : Store) (jobId : String) (force : Bool) :
    Except ApiError Store :=
  match getJob store jobId with
  | none => Except.error ApiError.notFound
  | some job =>
      if job.status ≠ JobStatus.failed then
        Except.error (ApiError.invalidTransition "Can only retry failed jobs")
      else if job.max_retries ≤ job.retry_count ∧ force = false then
        Except.error (ApiError.invalidTransition "Job has exceeded maximum retry count")
      else
        let store1 := updateRow store jobId (fun j =>
          { j with
              status := JobStatus.pending
              error_message := none
              retry_count := j.retry_count + 1
              progress := 0
              started_at := none
              completed_at := none })
        Except.ok (enqueue_job store1 jobId)

/-- A subscriber channel of the progress hub (`asyncio.Queue` in
`JobQueue.job_subscribers`); `broken` marks a channel whose consumer is
gone, so that putting into it raises. -/
structure Channel where
  cid : Nat
  broken : Bool
deriving DecidableEq, Repr

/-- Putting an update into one subscriber channel (`await queue.put(..)`):
raises exactly when the channel is broken. -/
def channelPut (ch : Channel) (_msg : String) : Except String Unit :=
  if ch.broken then Except.error "Failed to notify subscriber" else Except.ok ()

/-- The delivery loop of `JobQueue._notify_subscribers`: iterate over a
copy of the subscriber set, put the update into each channel, and catch
any per-channel exception (`except Exception as e: logger.error(...)`),
leaving the registry untouched.  Returns the ids of the channels that
received the update. -/
def deliverLoop (msg : String) : List Channel → List Nat
  | [] => []
  | ch :: rest =>
      match channelPut ch msg with
      | Except.ok _ => ch.cid :: deliverLoop msg rest
      | Except.error _ => deliverLoop msg rest

/-- `JobQueue._notify_subscribers` restricted to one job id's
subscriber set: deliver to every channel in a copy of the set, swallow
per-channel failures, and return the (unmodified) subscriber set. -/
def notify_subscribers (subs : List Channel) (msg : String) :
    List Nat × List Channel :=
  (deliverLoop msg subs, subs)

/-!
Model of N workers concurrently executing `JobQueue.get_next_job`
against the same store.  The workers are asyncio tasks in one event
loop, and the body of `get_next_job` contains no suspension point
between the selection query (`list_jobs`) and the status update
(`update_job_status`): both are synchronous store calls, and the only
`await` in the call (taking `self._lock` to update `active_jobs`) comes
after the update.  Under cooperative scheduling each claim call's
read-and-update therefore executes without interleaving, so every
concurrent execution of N claim attempts is some serialization of the
N whole `get_next_job` calls.  `runClaims` executes n such calls in
sequence against the evolving store and collects each call's result. -/
def runClaims (now : Nat) (store : Store) : Nat → List (Option Job) × Store
  | 0 => ([], store)
  | n + 1 =>
      let r := get_next_job store now
      let rest := runClaims now r.2 n
      (r.1 :: rest.1, rest.2)

/-- The number of QUEUED jobs in the store. -/
def queuedCount (store : Store) : Nat :=
  (store.filter (fun j => decide (j.status = JobStatus.queued))).length

/-- The per-row effect of the claim's
`update_job_status(job.id, PROCESSING, started_at=now)`. -/
def claimUpdate (now : Nat) (jj : Job) : Job :=
  { jj with status := JobStatus.processing, started_at := some now }

/-! ### Concrete inputs used by the individual verification results -/

/-- A freshly created job row with the model's default values
(status PENDING, progress 0, priority 0, retry_count 0, max_retries 3,
all nullable fields NULL). -/
def baseJob : Job :=
  { id := "job-0"
    youtube_url := "https://youtube.com/watch?v=abc"
    job_type := "full_processing"
    status := JobStatus.pending
    progress := 0
    priority := 0
    created_at := 0
    started_at := none
    completed_at := none
    worker_id := none
    error_message := none
    retry_count := 0
    max_retries := 3
    video_title := none
    transcript := none
    generated_clips := none
    output_files := none }

def c1Job : Job := { baseJob with id := "job-c1", status := JobStatus.queued }

def c1Filler (i : Nat) : Job :=
  { baseJob with id := "c1-filler-" ++ toString i, created_at := i }

def c1OldJob : Job :=
  { baseJob with id := "c1-old", status := JobStatus.queued, priority := 5, created_at := 0 }

def c1NewJob : Job :=
  { baseJob with id := "c1-new", status := JobStatus.queued, priority := 1, created_at := 100 }

/-- A store of 101 jobs with two QUEUED jobs: an old one (created 0,
outside the 100-job claim window) and a recent one (created 100); the
99 fillers (created 1..99) are PENDING. -/
def c1BigStore : Store :=
  c1OldJob :: c1NewJob :: (List.range 99).map (fun i => c1Filler (i + 1))

def c2Job : Job := { baseJob with id := "job-c2", status := JobStatus.queued }

def c2RowAfter : Job :=
  { c2Job with status := JobStatus.processing, started_at := some 5 }

def c3JobA : Job :=
  { baseJob with id := "c3-a", status := JobStatus.queued, priority := 1, created_at := 1 }

def c3JobB : Job :=
  { baseJob with id := "c3-b", status := JobStatus.queued, priority := 5, created_at := 2 }

def c3JobC : Job :=
  { baseJob with id := "c3-c", status := JobStatus.queued, priority := 1, created_at := 3 }

def c3Store : Store := [c3JobA, c3JobB, c3JobC]

def c3Run1 : Option Job × Store := get_next_job c3Store 10

def c3Run2 : Option Job × Store := get_next_job c3Run1.2 11

def c3Run3 : Option Job × Store := get_next_job c3Run2.2 12

def c3Run4 : Option Job × Store := get_next_job c3Run3.2 13

def c3Filler (i : Nat) : Job :=
  { baseJob with id := "c3-filler-" ++ toString i, created_at := i }

def c3OldJob : Job :=
  { baseJob with id := "c3-old", status := JobStatus.queued, priority := 5, created_at := 0 }

def c3NewJob : Job :=
  { baseJob with id := "c3-new", status := JobStatus.queued, priority := 1, created_at := 100 }

/-- A store of 101 jobs: one old high-priority QUEUED job (created 0),
99 PENDING fillers (created 1..99) and one recent low-priority QUEUED
job (created 100). -/
def c3BigStore : Store :=
  c3OldJob :: c3NewJob :: (List.range 99).map (fun i => c3Filler (i + 1))

def c4Job : Job :=
  { baseJob with
      id := "c4"
      status := JobStatus.failed
      progress := 70
      error_message := some "boom" }

/-- Stage outcomes that fail the transcription stage with
"model unavailable" and succeed everywhere else. -/
def c5Exec : String → Except String Unit := fun s =>
  if s = "transcribing" then Except.error "model unavailable" else Except.ok ()

def c5Job : Job :=
  { baseJob with id := "c5", status := JobStatus.processing, started_at := some 4 }

def c6Job : Job :=
  { baseJob with
      id := "c6"
      status := JobStatus.failed
      progress := 70
      error_message := some "stage failed"
      retry_count := 0
      max_retries := 3
      started_at := some 1
      completed_at := some 2 }

def c6MaxJob : Job :=
  { baseJob with
      id := "c6m"
      status := JobStatus.failed
      retry_count := 3
      max_retries := 3 }

def c7Job : Job := { baseJob with id := "c7", status := JobStatus.processing }

def c7DoneJob : Job := { baseJob with id := "c7d", status := JobStatus.completed }

def c8Job : Job := { baseJob with id := "c8", status := JobStatus.processing, progress := 0 }

def c9Broken : Channel := { cid := 7, broken := true }

def c9Live : Channel := { cid := 3, broken := false }

def c10Filler (i : Nat) : Job :=
  { baseJob with id := "c10-filler-" ++ toString i, created_at := i }

def c10OldJob : Job :=
  { baseJob with id := "c10-old", status := JobStatus.queued, priority := 9, created_at := 0 }

def c10NewJob : Job :=
  { baseJob with id := "c10-new", status := JobStatus.queued, priority := 0, created_at := 100 }

/-- A store of 101 jobs in which 100 jobs are strictly newer than the
old maximum-priority QUEUED job. -/
def c10Store : Store :=
  c10OldJob :: c10NewJob :: (List.range 99).map (fun i => c10Filler (i + 1))

/-! ### Store lemmas -/

theorem getJob_id_eq {store : Store} {jobId : String} {j : Job}
    (h : getJob store jobId = some j) : j.id = jobId := by
  have := List.find?_some h
  simpa using this

theorem mem_of_getJob {store : Store} {jobId : String} {j : Job}
    (h : getJob store jobId = some j) : j ∈ store :=
  List.mem_of_find?_eq_some h

theorem getJob_isSome_of_mem {store : Store} {j : Job} (h : j ∈ store) :
    (getJob store j.id).isSome := by
  rw [getJob, List.find?_isSome]
  exact ⟨j, h, by simp⟩

theorem getJob_updateRow {store : Store} {jobId : String} {f : Job → Job}
    (hf : ∀ j, (f j).id = j.id) :
    getJob (updateRow store jobId f) jobId = (getJob store jobId).map f := by
  induction store with
  | nil => rfl
  | cons j rest ih =>
      by_cases h : j.id = jobId
      · simp [updateRow, getJob, List.find?_cons, h, hf]
      · simp only [updateRow, if_neg h]
        simp only [getJob, List.find?_cons] at ih ⊢
        simp [h, ih]

theorem updateRow_of_getJob_none {store : Store} {jobId : String}
    {f : Job → Job} (h : getJob store jobId = none) :
    updateRow store jobId f = store := by
  induction store with
  | nil => rfl
  | cons j rest ih =>
      by_cases hid : j.id = jobId
      · simp [getJob, List.find?_cons, hid] at h
      · simp only [updateRow, if_neg hid]
        have hrest : getJob rest jobId = none := by
          simpa [getJob, List.find?_cons, hid] using h
        rw [ih hrest]

theorem updateRow_updateRow {store : Store} {jobId : String}
    {f g : Job → Job} (hf : ∀ j, (f j).id = j.id) :
    updateRow (updateRow store jobId f) jobId g =
      updateRow store jobId (fun j => g (f j)) := by
  induction store with
  | nil => rfl
  | cons j rest ih =>
      by_cases h : j.id = jobId
      · simp [updateRow, h, hf]
      · simp [updateRow, h, ih]

/-! ### Order and selection lemmas -/

theorem claimOrder_refl (a : Job) : ClaimOrder a a := by
  unfold ClaimOrder; omega

theorem mem_queuedWindow_of_selectNextJob {store : Store} {j : Job}
    (h : selectNextJob store = some j) : j ∈ queuedWindow store := by
  rw [selectNextJob] at h
  obtain ⟨ys, hys⟩ := List.head?_eq_some_iff.mp h
  have : j ∈ List.insertionSort ClaimOrder (queuedWindow store) := by
    rw [hys]; exact List.mem_cons_self j ys
  exact (List.mem_insertionSort ClaimOrder).mp this

theorem mem_store_of_mem_queuedWindow {store : Store} {j : Job}
    (h : j ∈ queuedWindow store) : j ∈ store := by
  rw [queuedWindow] at h
  have h1 : j ∈ list_jobs store 100 := (List.mem_filter.mp h).1
  rw [list_jobs] at h1
  have h2 : j ∈ List.insertionSort CreatedDesc store :=
    (List.take_sublist _ _).subset h1
  exact (List.mem_insertionSort CreatedDesc).mp h2

theorem status_queued_of_mem_queuedWindow {store : Store} {j : Job}
    (h : j ∈ queuedWindow store) : j.status = JobStatus.queued := by
  rw [queuedWindow] at h
  have := (List.mem_filter.mp h).2
  simpa using this

theorem selectNextJob_le {store : Store} {j : Job}
    (h : selectNextJob store = some j) :
    ∀ b ∈ queuedWindow store, ClaimOrder j b := by
  intro b hb
  rw [selectNextJob] at h
  obtain ⟨ys, hys⟩ := List.head?_eq_some_iff.mp h
  have hsorted : List.Sorted ClaimOrder
      (List.insertionSort ClaimOrder (queuedWindow store)) :=
    List.sorted_insertionSort ClaimOrder (queuedWindow store)
  have hb2 : b ∈ List.insertionSort ClaimOrder (queuedWindow store) :=
    (List.mem_insertionSort ClaimOrder).mpr hb
  rw [hys] at hsorted hb2
  rcases List.mem_cons.mp hb2 with rfl | hmem
  · exact claimOrder_refl b
  · exact (List.pairwise_cons.mp hsorted).1 b hmem

/-- In a list sorted by `created_at` descending, a member of the first
`n` entries is newer than all but fewer than `n` entries of the list. -/
theorem countP_newer_lt_of_mem_take {l : List Job} {j : Job} {n : Nat}
    (hs : List.Sorted CreatedDesc l)
    (hm : j ∈ l.take n) :
    l.countP (fun a => decide (j.created_at < a.created_at)) < n := by
  induction l generalizing n with
  | nil => simp at hm
  | cons x xs ih =>
      cases n with
      | zero => simp at hm
      | succ m =>
          rw [List.take_succ_cons] at hm
          rcases List.mem_cons.mp hm with rfl | hm'
          · have hall : ∀ a ∈ xs,
                ¬ (decide (j.created_at < a.created_at) = true) := by
              intro a ha
              have hle := (List.sorted_cons.mp hs).1 a ha
              unfold CreatedDesc at hle
              simp only [decide_eq_true_iff]
              omega
            have hzero :
                xs.countP (fun a => decide (j.created_at < a.created_at)) = 0 :=
              List.countP_eq_zero.mpr hall
            rw [List.countP_cons, hzero]
            simp
          · have hlt := ih (List.sorted_cons.mp hs).2 hm'
            rw [List.countP_cons]
            split <;> omega

/-! ### Lemmas about the serialized claim protocol -/

theorem map_id_updateRow {store : Store} {jobId : String} {f : Job → Job}
    (hf : ∀ j, (f j).id = j.id) :
    (updateRow store jobId f).map Job.id = store.map Job.id := by
  induction store with
  | nil => rfl
  | cons j rest ih =>
      by_cases h : j.id = jobId
      · simp [updateRow, h, hf]
      · simp [updateRow, h, ih]

theorem length_updateRow {store : Store} {jobId : String} {f : Job → Job} :
    (updateRow store jobId f).length = store.length := by
  induction store with
  | nil => rfl
  | cons j rest ih =>
      by_cases h : j.id = jobId
      · simp [updateRow, h]
      · simp [updateRow, h, ih]

theorem getJob_updateRow_ne {store : Store} {jobId i : String} {f : Job → Job}
    (hf : ∀ j, (f j).id = j.id) (hne : i ≠ jobId) :
    getJob (updateRow store jobId f) i = getJob store i := by
  induction store with
  | nil => rfl
  | cons j rest ih =>
      by_cases h : j.id = jobId
      · subst h
        have : ¬ (f j).id = i := by rw [hf]; exact fun hc => hne hc.symm
        simp [updateRow, getJob, List.find?_cons, this,
          show ¬ j.id = i from fun hc => hne hc.symm]
      · by_cases h2 : j.id = i
        · simp [updateRow, h, getJob, List.find?_cons, h2, hne]
        · simp only [updateRow, if_neg h]
          simp only [getJob, List.find?_cons] at ih ⊢
          simp [h2, ih]

theorem getJob_of_mem_nodup {store : Store} {j : Job}
    (hnodup : (store.map Job.id).Nodup) (hmem : j ∈ store) :
    getJob store j.id = some j := by
  induction store with
  | nil => cases hmem
  | cons h rest ih =>
      rcases List.mem_cons.mp hmem with rfl | hmem2
      · simp [getJob, List.find?_cons]
      · by_cases hid : h.id = j.id
        · exfalso
          have : j.id ∈ rest.map Job.id := List.mem_map_of_mem Job.id hmem2
          have hh := (List.nodup_cons.mp hnodup).1
          rw [hid] at hh
          exact hh this
        · have := ih (List.nodup_cons.mp hnodup).2 hmem2
          simpa [getJob, List.find?_cons, hid] using this

theorem queuedCount_updateRow {store : Store} {i : String} {j : Job}
    {f : Job → Job}
    (hrow : getJob store i = some j) (hq : j.status = JobStatus.queued)
    (hfq : (f j).status ≠ JobStatus.queued) :
    queuedCount (updateRow store i f) + 1 = queuedCount store := by
  induction store with
  | nil => cases hrow
  | cons h rest ih =>
      by_cases hid : h.id = i
      · have : h = j := by
          simpa [getJob, List.find?_cons, hid] using hrow
        subst this
        simp [updateRow, hid, queuedCount, List.filter_cons, hq, hfq]
      · have hrest : getJob rest i = some j := by
          simpa [getJob, List.find?_cons, hid] using hrow
        have := ih hrest
        by_cases hstat : h.status = JobStatus.queued
        · simp only [updateRow, if_neg hid]
          simp [queuedCount, List.filter_cons, hstat] at this ⊢
          omega
        · simp only [updateRow, if_neg hid]
          simp [queuedCount, List.filter_cons, hstat] at this ⊢
          omega

theorem queuedWindow_length {store : Store} (hlen : store.length ≤ 100) :
    (queuedWindow store).length = queuedCount store := by
  have hsortlen : (List.insertionSort CreatedDesc store).length = store.length :=
    (List.perm_insertionSort CreatedDesc store).length_eq
  have htake : (List.insertionSort CreatedDesc store).take 100 =
      List.insertionSort CreatedDesc store :=
    List.take_of_length_le (by omega)
  rw [queuedWindow, list_jobs, htake]
  exact ((List.perm_insertionSort CreatedDesc store).filter _).length_eq

theorem selectNextJob_none_iff {store : Store} :
    selectNextJob store = none ↔ (queuedWindow store).length = 0 := by
  rw [selectNextJob, List.head?_eq_none_iff]
  constructor
  · intro h
    have := (List.perm_insertionSort ClaimOrder (queuedWindow store)).length_eq
    rw [h] at this
    simpa using this.symm
  · intro h
    have hnil : queuedWindow store = [] := List.length_eq_zero.mp h
    rw [hnil]
    rfl

theorem get_next_job_none {store : Store} {now : Nat}
    (hsel : selectNextJob store = none) :
    get_next_job store now = (none, store) := by
  rw [get_next_job, hsel]

theorem get_next_job_some {store : Store} {now : Nat} {j : Job}
    (hsel : selectNextJob store = some j) :
    get_next_job store now =
      (some j, updateRow store j.id (claimUpdate now)) := by
  have hmem : j ∈ store :=
    mem_store_of_mem_queuedWindow (mem_queuedWindow_of_selectNextJob hsel)
  obtain ⟨row, hrow⟩ :=
    Option.isSome_iff_exists.mp (getJob_isSome_of_mem hmem)
  rw [get_next_job, hsel]
  simp only [update_job_status, hrow]
  rfl

theorem count_none_add_filterMap_length :
    ∀ l : List (Option Job), l.count none + (l.filterMap id).length = l.length := by
  intro l
  induction l with
  | nil => rfl
  | cons a rest ih =>
      cases a with
      | none => simp [List.count_cons, ih]; omega
      | some x => simp [List.count_cons, ih]; omega

theorem runClaims_spec :
    ∀ (n : Nat) (store : Store) (now : Nat),
      (store.map Job.id).Nodup → store.length ≤ 100 →
      (runClaims now store n).1.length = n ∧
      ((runClaims now store n).1.filterMap id).length = min n (queuedCount store) ∧
      (((runClaims now store n).1.filterMap id).map Job.id).Nodup ∧
      (∀ j ∈ (runClaims now store n).1.filterMap id,
        getJob (runClaims now store n).2 j.id = some (claimUpdate now j)) ∧
      (∀ (i : String) (row : Job), getJob store i = some row →
        row.status = JobStatus.processing →
        getJob (runClaims now store n).2 i = some row ∧
        ∀ j2 ∈ (runClaims now store n).1.filterMap id, j2.id ≠ i) := by
  intro n
  induction n with
  | zero =>
      intro store now hnodup hlen
      refine ⟨rfl, by simp [runClaims], by simp [runClaims], ?_, ?_⟩
      · intro j hj
        simp [runClaims] at hj
      · intro i row hrow hst
        refine ⟨hrow, ?_⟩
        intro j2 hj2
        simp [runClaims] at hj2
  | succ m ih =>
      intro store now hnodup hlen
      cases hsel : selectNextJob store with
      | none =>
          have hstep : get_next_job store now = (none, store) :=
            get_next_job_none hsel
          have hq0 : queuedCount store = 0 := by
            have := selectNextJob_none_iff.mp hsel
            rwa [queuedWindow_length hlen] at this
          have hrun : runClaims now store (m + 1) =
              (none :: (runClaims now store m).1, (runClaims now store m).2) := by
            simp [runClaims, hstep]
          obtain ⟨ihA1, ihA2, ihA3, ihA4, ihA5⟩ := ih store now hnodup hlen
          rw [hrun]
          refine ⟨by simp [ihA1], ?_, by simpa using ihA3, ?_, ?_⟩
          · simpa [hq0] using ihA2
          · intro j hj
            exact ihA4 j (by simpa using hj)
          · intro i row hrow hst
            obtain ⟨h1, h2⟩ := ihA5 i row hrow hst
            refine ⟨h1, ?_⟩
            intro j2 hj2
            exact h2 j2 (by simpa using hj2)
      | some j =>
          have hjq : j.status = JobStatus.queued :=
            status_queued_of_mem_queuedWindow (mem_queuedWindow_of_selectNextJob hsel)
          have hjmem : j ∈ store :=
            mem_store_of_mem_queuedWindow (mem_queuedWindow_of_selectNextJob hsel)
          have hjrow : getJob store j.id = some j := getJob_of_mem_nodup hnodup hjmem
          have hstep : get_next_job store now =
              (some j, updateRow store j.id (claimUpdate now)) :=
            get_next_job_some hsel
          have hnodup2 : ((updateRow store j.id (claimUpdate now)).map Job.id).Nodup := by
            rw [map_id_updateRow (f := claimUpdate now) (fun _ => rfl)]
            exact hnodup
          have hlen2 : (updateRow store j.id (claimUpdate now)).length ≤ 100 := by
            rw [length_updateRow]
            exact hlen
          have hq2 : queuedCount (updateRow store j.id (claimUpdate now)) + 1 =
              queuedCount store :=
            queuedCount_updateRow hjrow hjq (by simp [claimUpdate])
          have hrow2 : getJob (updateRow store j.id (claimUpdate now)) j.id =
              some (claimUpdate now j) := by
            rw [getJob_updateRow (f := claimUpdate now) (fun _ => rfl), hjrow,
              Option.map_some']
          obtain ⟨ihA1, ihA2, ihA3, ihA4, ihA5⟩ :=
            ih (updateRow store j.id (claimUpdate now)) now hnodup2 hlen2
          have hrun : runClaims now store (m + 1) =
              (some j :: (runClaims now (updateRow store j.id (claimUpdate now)) m).1,
               (runClaims now (updateRow store j.id (claimUpdate now)) m).2) := by
            simp [runClaims, hstep]
          have havoid := ihA5 j.id (claimUpdate now j) hrow2 (by simp [claimUpdate])
          have hlist :
              List.filterMap id
                (some j :: (runClaims now (updateRow store j.id (claimUpdate now)) m).1) =
              j :: List.filterMap id
                (runClaims now (updateRow store j.id (claimUpdate now)) m).1 := by
            simp
          rw [hrun]
          refine ⟨by simp [ihA1], ?_, ?_, ?_, ?_⟩
          · rw [hlist]
            simp only [List.length_cons]
            rw [ihA2]
            omega
          · rw [hlist]
            simp only [List.map_cons, List.nodup_cons]
            refine ⟨?_, ihA3⟩
            intro hmem2
            obtain ⟨j2, hj2mem, hj2id⟩ := List.mem_map.mp hmem2
            exact havoid.2 j2 hj2mem hj2id
          · intro j2 hj2
            rw [hlist] at hj2
            rcases List.mem_cons.mp hj2 with rfl | hj2r
            · exact havoid.1
            · exact ihA4 j2 hj2r
          · intro i row hrow hst
            have hne : i ≠ j.id := by
              intro heq
              subst heq
              rw [hjrow] at hrow
              have hjr := Option.some.inj hrow
              rw [← hjr] at hst
              rw [hjq] at hst
              cases hst
            have hrowstore2 : getJob (updateRow store j.id (claimUpdate now)) i =
                some row := by
              rw [getJob_updateRow_ne (f := claimUpdate now) (fun _ => rfl) hne]
              exact hrow
            obtain ⟨hkeep, havoidr⟩ := ihA5 i row hrowstore2 hst
            refine ⟨hkeep, ?_⟩
            intro j2 hj2
            rw [hlist] at hj2
            rcases List.mem_cons.mp hj2 with rfl | hj2r
            · exact fun hc => hne hc.symm
            · exact havoidr j2 hj2r

/-! ### Stage-loop lemmas -/

theorem runStages_fail (exec : String → Except String Unit) (jobId : String)
    (m : String) :
    ∀ (pre rest : List (String × Nat × String)) (st : String × Nat × String),
      (∀ t ∈ pre, exec t.1 = Except.ok ()) → exec st.1 = Except.error m →
      runStages true exec jobId (pre ++ st :: rest) =
        ((pre ++ [st]).map (mkProgressEvent jobId), some m) := by
  intro pre
  induction pre with
  | nil =>
      intro rest st _ hfail
      simp [runStages, hfail]
  | cons t pre ih =>
      intro rest st hok hfail
      have ht : exec t.1 = Except.ok () := hok t (List.mem_cons_self t pre)
      have hrec := ih rest st (fun u hu => hok u (List.mem_cons_of_mem t hu)) hfail
      simp [runStages, ht, hrec]

theorem runStages_events_take (exec : String → Except String Unit)
    (jobId : String) :
    ∀ (sts : List (String × Nat × String)) (running : Bool),
      ∃ r, (runStages running exec jobId sts).1 =
        (sts.take r).map (mkProgressEvent jobId) := by
  intro sts
  induction sts with
  | nil =>
      intro running
      exact ⟨0, by simp [runStages]⟩
  | cons st rest ih =>
      intro running
      cases running with
      | false => exact ⟨0, by simp [runStages]⟩
      | true =>
          cases hex : exec st.1 with
          | ok u =>
              obtain ⟨r, hr⟩ := ih true
              exact ⟨r + 1, by simp [runStages, hex, hr]⟩
          | error e => exact ⟨1, by simp [runStages, hex]⟩

theorem filterMap_progress_map_mkProgressEvent (jobId : String) :
    ∀ l : List (String × Nat × String),
      (l.map (mkProgressEvent jobId)).filterMap JobEvent.progress =
        l.map (fun st => st.2.1) := by
  intro l
  induction l with
  | nil => rfl
  | cons st rest ih => simp [mkProgressEvent, List.filterMap_cons, ih]

theorem pairwise_progress_stages_take (jobId : String) (r : Nat) :
    List.Pairwise (fun p q => p ≤ q)
      (((stages.take r).map (mkProgressEvent jobId)).filterMap JobEvent.progress) := by
  rw [filterMap_progress_map_mkProgressEvent]
  have hall : List.Pairwise (fun p q => p ≤ q)
      (stages.map (fun st => st.2.1)) := by decide
  exact List.Pairwise.sublist ((List.take_sublist r stages).map _) hall

/-! ### Claim results -/

/-- C1 (amended): mutual exclusion of the claim operation.
`get_next_job` has no suspension point between its selection query and
its status update, so under the event loop's cooperative scheduling any
concurrent execution of N worker claim attempts is a serialization of N
whole claim calls (`runClaims`).  Against a store with unique job ids
that fits the 100-row claim window (without that bound QUEUED jobs
outside the window are invisible to the claim and fewer than M jobs
reach PROCESSING — see the counterexample) and M QUEUED jobs, M < N
claim attempts by N workers give: N results in total, exactly M of them
successful, the claimed jobs pairwise distinct (each job id claimed by
exactly one worker), every claimed job's row PROCESSING with
`started_at` set in the final store, and the remaining N - M attempts
observing no eligible job (None). -/
theorem c1_claim_mutual_exclusion :
    ∀ (n : Nat) (store : Store) (now : Nat),
      (store.map Job.id).Nodup → store.length ≤ 100 →
      queuedCount store < n →
      (runClaims now store n).1.length = n ∧
      ((runClaims now store n).1.filterMap id).length = queuedCount store ∧
      (((runClaims now store n).1.filterMap id).map Job.id).Nodup ∧
      (∀ j ∈ (runClaims now store n).1.filterMap id,
        getJob (runClaims now store n).2 j.id =
          some { j with status := JobStatus.processing, started_at := some now }) ∧
      (runClaims now store n).1.count none = n - queuedCount store := by
  intro n store now hnodup hlen hM
  obtain ⟨a1, a2, a3, a4, _⟩ := runClaims_spec n store now hnodup hlen
  have hmin : min n (queuedCount store) = queuedCount store := by omega
  rw [hmin] at a2
  refine ⟨a1, a2, a3, a4, ?_⟩
  have hcount := count_none_add_filterMap_length (runClaims now store n).1
  omega

/-- C1 witness: two workers against one QUEUED job — one claim
succeeds, the claimed job's row is PROCESSING afterwards, and the other
worker observes None. -/
theorem c1_claim_mutual_exclusion_witness :
    ((runClaims 7 [c1Job] 2).1.filterMap id).length = queuedCount [c1Job] ∧
    (runClaims 7 [c1Job] 2).1.count none = 2 - queuedCount [c1Job] ∧
    queuedCount [c1Job] = 1 :=
  ⟨(c1_claim_mutual_exclusion 2 [c1Job] 7 (by decide) (by decide) (by decide)).2.1,
   (c1_claim_mutual_exclusion 2 [c1Job] 7 (by decide) (by decide) (by decide)).2.2.2.2,
   by decide⟩

/-- C1 counterexample: in a 101-row store holding M = 2 QUEUED jobs —
one of them older than the 100 most recently created rows — N = 3
claim attempts mark only 1 job PROCESSING, two workers observe None
(the claim requires N - M = 1), and the old QUEUED job is left exactly
as it was: "exactly M jobs reach PROCESSING" is false for stores larger
than the claim window. -/
theorem c1_fewer_than_m_claimed_over_window :
    queuedCount c1BigStore = 2 ∧
    (runClaims 7 c1BigStore 3).1.length = 3 ∧
    ((runClaims 7 c1BigStore 3).1.filterMap id).length = 1 ∧
    (1 : Nat) ≠ 2 ∧
    (runClaims 7 c1BigStore 3).1.count none = 2 ∧
    (2 : Nat) ≠ 3 - 2 ∧
    getJob (runClaims 7 c1BigStore 3).2 "c1-old" = some c1OldJob ∧
    c1OldJob.status = JobStatus.queued := by
  decide

/-- C2 (amended): when `get_next_job` returns a job, the stored row is
updated in one atomic store call to status PROCESSING with `started_at`
set; all other fields of the row — in particular `worker_id` — are
unchanged by the claim step. -/
theorem c2_claim_sets_processing_and_started_at :
    ∀ (store : Store) (now : Nat) (j : Job) (store2 : Store),
      get_next_job store now = (some j, store2) →
      ∃ row, getJob store j.id = some row ∧
        getJob store2 j.id =
          some { row with status := JobStatus.processing, started_at := some now } := by
  intro store now j store2 h
  cases hsel : selectNextJob store with
  | none => rw [get_next_job, hsel] at h; simp at h
  | some job =>
      have hmem : job ∈ store :=
        mem_store_of_mem_queuedWindow (mem_queuedWindow_of_selectNextJob hsel)
      obtain ⟨row, hrow⟩ :=
        Option.isSome_iff_exists.mp (getJob_isSome_of_mem hmem)
      rw [get_next_job, hsel] at h
      simp [update_job_status, hrow] at h
      obtain ⟨rfl, hst⟩ := h
      refine ⟨row, hrow, ?_⟩
      rw [← hst,
        getJob_updateRow
          (f := fun jj =>
            { jj with status := JobStatus.processing, started_at := some now })
          (fun _ => rfl),
        hrow]
      rfl

/-- C2 witness: the amended claim evaluated on a one-job store. -/
theorem c2_claim_sets_processing_witness :
    ∃ row, getJob [c2Job] c2Job.id = some row ∧
      getJob (get_next_job [c2Job] 5).2 c2Job.id =
        some { row with status := JobStatus.processing, started_at := some 5 } :=
  c2_claim_sets_processing_and_started_at [c2Job] 5 c2Job
    (get_next_job [c2Job] 5).2 (by decide)

/-- C2 counterexample: immediately after a successful claim the stored
row has status PROCESSING and a non-null `started_at`, but its
`worker_id` is still NULL — the claim's "non-null worker_id" part is
false (`worker_id` is only assigned later, in `_process_job`). -/
theorem c2_worker_id_null_after_claim :
    (get_next_job [c2Job] 5).1 = some c2Job ∧
    getJob (get_next_job [c2Job] 5).2 "job-c2" = some c2RowAfter ∧
    c2RowAfter.status = JobStatus.processing ∧
    c2RowAfter.started_at = some 5 ∧
    c2RowAfter.worker_id = none := by
  decide

/-- C9 (amended): `_notify_subscribers` delivers the update to exactly
the channels whose consumer is still there, swallows each broken
channel's exception instead of letting it reach the caller, and leaves
the subscriber registry exactly as it was — broken channels are NOT
pruned. -/
theorem c9_notify_delivers_all_and_keeps_registry :
    ∀ (subs : List Channel) (msg : String),
      notify_subscribers subs msg =
        ((subs.filter (fun c => !c.broken)).map Channel.cid, subs) := by
  intro subs msg
  rw [notify_subscribers]
  have hloop : ∀ cs : List Channel,
      deliverLoop msg cs = (cs.filter (fun c => !c.broken)).map Channel.cid := by
    intro cs
    induction cs with
    | nil => rfl
    | cons ch rest ih =>
        by_cases hb : ch.broken
        · simp [deliverLoop, channelPut, hb, ih, List.filter_cons]
        · simp [deliverLoop, channelPut, hb, ih, List.filter_cons]
  rw [hloop]

/-- C9 counterexample: publishing to a subscriber set holding one
broken channel raises nothing, delivers nothing, and leaves the broken
channel registered — it is not pruned, refuting the pruning part of the
claim. -/
theorem c9_broken_channel_not_pruned :
    channelPut c9Broken "update" = Except.error "Failed to notify subscriber" ∧
    notify_subscribers [c9Broken, c9Live] "update" = ([3], [c9Broken, c9Live]) ∧
    c9Broken ∈ (notify_subscribers [c9Broken, c9Live] "update").2 := by
  refine ⟨rfl, rfl, ?_⟩
  exact List.mem_cons_self c9Broken [c9Live]

/-- C3 (amended): within the 100-most-recently-created window that
`get_next_job` inspects, the selected job is a QUEUED job of maximal
priority, ties broken by earliest creation time; None is returned when
the window holds no QUEUED job; and the three-job scenario (priorities
[1, 5, 1] in creation order, one worker) is processed as [priority-5
job, then the two priority-1 jobs in creation order]. -/
theorem c3_selection_priority_then_fifo :
    (∀ (store : Store) (j : Job), selectNextJob store = some j →
      j ∈ queuedWindow store ∧
        ∀ b ∈ queuedWindow store,
          b.priority < j.priority ∨
            (j.priority = b.priority ∧ j.created_at ≤ b.created_at)) ∧
    (∀ store : Store, queuedWindow store = [] → selectNextJob store = none) ∧
    (c3Run1.1 = some c3JobB ∧ c3Run2.1 = some c3JobA ∧
      c3Run3.1 = some c3JobC ∧ c3Run4.1 = none) := by
  refine ⟨?_, ?_, by decide⟩
  · intro store j hsel
    exact ⟨mem_queuedWindow_of_selectNextJob hsel, fun b hb => selectNextJob_le hsel b hb⟩
  · intro store hempty
    rw [selectNextJob, hempty]
    rfl

/-- C3 witness: the amended selection rule evaluated on a one-job
store. -/
theorem c3_selection_priority_then_fifo_witness :
    c3JobA ∈ queuedWindow [c3JobA] ∧
      ∀ b ∈ queuedWindow [c3JobA],
        b.priority < c3JobA.priority ∨
          (c3JobA.priority = b.priority ∧ c3JobA.created_at ≤ b.created_at) :=
  c3_selection_priority_then_fifo.1 [c3JobA] c3JobA (by decide)

/-- C3 counterexample: in a store of 101 jobs, the only two QUEUED jobs
are an old priority-5 job (created 0, outside the 100-job window) and a
recent priority-1 job; `get_next_job` selects the priority-1 job, so
the claim's "for every store state ... the one with highest priority"
is false. -/
theorem c3_not_highest_priority_over_full_store :
    selectNextJob c3BigStore = some c3NewJob ∧
    c3OldJob ∈ c3BigStore ∧
    c3OldJob.status = JobStatus.queued ∧
    c3NewJob.priority < c3OldJob.priority := by
  decide

/-- C4 (amended): `enqueue_job` sets an existing job's status to QUEUED
whatever its prior status, leaving every other field — including
progress — unchanged; a missing job id leaves the store untouched (the
failure is only logged); and the operation is idempotent. -/
theorem c4_enqueue_sets_queued_only :
    ∀ (store : Store) (jobId : String),
      (getJob store jobId = none → enqueue_job store jobId = store) ∧
      (∀ j, getJob store jobId = some j →
        getJob (enqueue_job store jobId) jobId =
          some { j with status := JobStatus.queued }) ∧
      enqueue_job (enqueue_job store jobId) jobId = enqueue_job store jobId := by
  intro store jobId
  refine ⟨?_, ?_, ?_⟩
  · intro hnone
    rw [enqueue_job, update_job_status, hnone]
  · intro j hrow
    rw [enqueue_job, update_job_status, hrow]
    simp only
    rw [getJob_updateRow
        (f := fun jj => { jj with status := JobStatus.queued }) (fun _ => rfl),
      hrow]
    rfl
  · cases hrow : getJob store jobId with
    | none =>
        have hinner : enqueue_job store jobId = store := by
          rw [enqueue_job, update_job_status, hrow]
        rw [hinner]
        exact hinner
    | some j =>
        have hinner : enqueue_job store jobId =
            updateRow store jobId
              (fun jj => { jj with status := JobStatus.queued }) := by
          rw [enqueue_job, update_job_status, hrow]
        rw [hinner, enqueue_job, update_job_status,
          getJob_updateRow
            (f := fun jj => { jj with status := JobStatus.queued }) (fun _ => rfl),
          hrow, Option.map_some',
          updateRow_updateRow
            (f := fun jj => { jj with status := JobStatus.queued })
            (g := fun jj => { jj with status := JobStatus.queued })
            (fun _ => rfl)]

/-- C4 witness: the amended enqueue contract evaluated on a one-job
store. -/
theorem c4_enqueue_sets_queued_only_witness :
    getJob (enqueue_job [c4Job] "c4") "c4" =
      some { c4Job with status := JobStatus.queued } :=
  (c4_enqueue_sets_queued_only [c4Job] "c4").2.1 c4Job (by decide)

/-- C4 counterexample: enqueueing a FAILED job whose progress is 70
moves it to QUEUED but leaves progress at 70 — `enqueue_job` passes
only a status to the store update, so the claim's "resets its progress
to 0" is false. -/
theorem c4_enqueue_does_not_reset_progress :
    c4Job.status = JobStatus.failed ∧
    getJob (enqueue_job [c4Job] "c4") "c4" =
      some { c4Job with status := JobStatus.queued } ∧
    ({ c4Job with status := JobStatus.queued } : Job).progress = 70 ∧
    (70 : Nat) ≠ 0 := by
  decide

/-- C10: `get_next_job` inspects only the 100 most recently created
jobs, so a QUEUED job that at least 100 other jobs strictly postdate is
never selected, regardless of its priority. -/
theorem c10_old_job_never_claimed :
    ∀ (store : Store) (now : Nat) (j : Job),
      j.status = JobStatus.queued →
      100 ≤ store.countP (fun a => decide (j.created_at < a.created_at)) →
      (get_next_job store now).1 ≠ some j := by
  intro store now j _hq hcount hclaim
  have hsel : selectNextJob store = some j := by
    rw [get_next_job] at hclaim
    cases hs : selectNextJob store with
    | none => rw [hs] at hclaim; simp at hclaim
    | some job =>
        rw [hs] at hclaim
        by_cases hb : (update_job_status store job.id JobStatus.processing (some now)).1
        · simp only [hb, if_true] at hclaim
          simp at hclaim
          subst hclaim
          rfl
        · simp only [hb] at hclaim
          simp at hclaim
  have hwin : j ∈ queuedWindow store := mem_queuedWindow_of_selectNextJob hsel
  have htake : j ∈ (List.insertionSort CreatedDesc store).take 100 := by
    rw [queuedWindow, list_jobs] at hwin
    exact (List.mem_filter.mp hwin).1
  have hsorted : List.Sorted CreatedDesc (List.insertionSort CreatedDesc store) :=
    List.sorted_insertionSort CreatedDesc store
  have hlt := countP_newer_lt_of_mem_take hsorted htake
  have hperm := (List.perm_insertionSort CreatedDesc store).countP_eq
    (fun a => decide (j.created_at < a.created_at))
  omega

/-- C10 witness: on a concrete store of 101 jobs in which 100 jobs
strictly postdate the old priority-9 QUEUED job, the claim never
returns that job. -/
theorem c10_old_job_never_claimed_witness :
    (get_next_job c10Store 3).1 ≠ some c10OldJob :=
  c10_old_job_never_claimed c10Store 3 c10OldJob (by decide) (by decide)

/-- C5 (amended): when the stage work fails, the remaining stages are
not run and `_process_job` commits the job with status FAILED, the
error message captured verbatim, `completed_at` set and every other
field — in particular `generated_clips`/`output_files` and `progress` —
unchanged; the events are exactly the progress events of the stages
reached (the failing stage's own checkpoint event included) followed by
a terminal "error" event that carries no progress value. -/
theorem c5_stage_failure_aborts_with_error :
    ∀ (exec : String → Except String Unit) (w : String) (job : Job) (now : Nat)
      (pre rest : List (String × Nat × String)) (st : String × Nat × String)
      (m : String),
      stages = pre ++ st :: rest →
      (∀ t ∈ pre, exec t.1 = Except.ok ()) →
      exec st.1 = Except.error m →
      process_job true exec w job now =
        ({ job with
            worker_id := some w
            status := JobStatus.failed
            error_message := some m
            completed_at := some now },
         (pre ++ [st]).map (mkProgressEvent job.id) ++ [mkErrorEvent job.id m]) := by
  intro exec w job now pre rest st m hsplit hok hfail
  have hrun : runStages true exec ({ job with worker_id := some w } : Job).id
      (pre ++ st :: rest) = ((pre ++ [st]).map (mkProgressEvent job.id), some m) :=
    runStages_fail exec job.id m pre rest st hok hfail
  simp only [process_job, hsplit, hrun]

/-- C5 witness: the amended statement evaluated with the transcription
stage failing with "model unavailable". -/
theorem c5_stage_failure_aborts_with_error_witness :
    process_job true c5Exec "worker-0" c5Job 9 =
      ({ c5Job with
          worker_id := some "worker-0"
          status := JobStatus.failed
          error_message := some "model unavailable"
          completed_at := some 9 },
       ([("initializing", 10, "Initializing job..."),
         ("downloading", 30, "Downloading video..."),
         ("extracting_audio", 50, "Extracting audio..."),
         ("transcribing", 70, "Transcribing audio...")]).map (mkProgressEvent "c5")
         ++ [mkErrorEvent "c5" "model unavailable"]) :=
  c5_stage_failure_aborts_with_error c5Exec "worker-0" c5Job 9
    [("initializing", 10, "Initializing job..."),
     ("downloading", 30, "Downloading video..."),
     ("extracting_audio", 50, "Extracting audio...")]
    [("analyzing", 85, "Analyzing content..."),
     ("finalizing", 95, "Finalizing results..."),
     ("completed", 100, "Job completed successfully!")]
    ("transcribing", 70, "Transcribing audio...") "model unavailable"
    (by decide) (by decide) (by decide)

/-- C5 counterexample: a failure at the transcription stage with
message "model unavailable" ends FAILED with the message verbatim and
clips/output unset, but the job's progress stays at its prior value 0
(not 55), the transcription stage's own checkpoint event carries 70
(the checkpoint before it being 50), no event ever carries 55, and the
terminal event has kind "error" with no progress value — refuting the
claimed "progress frozen at checkpoint 55" and the "failed event
carrying the last progress value". -/
theorem c5_no_checkpoint_55_on_transcribe_failure :
    (process_job true c5Exec "worker-0" c5Job 9).1.status = JobStatus.failed ∧
    (process_job true c5Exec "worker-0" c5Job 9).1.error_message =
      some "model unavailable" ∧
    (process_job true c5Exec "worker-0" c5Job 9).1.completed_at = some 9 ∧
    (process_job true c5Exec "worker-0" c5Job 9).1.generated_clips = none ∧
    (process_job true c5Exec "worker-0" c5Job 9).1.output_files = none ∧
    (process_job true c5Exec "worker-0" c5Job 9).1.progress = 0 ∧
    (0 : Nat) ≠ 55 ∧
    (process_job true c5Exec "worker-0" c5Job 9).2.map JobEvent.progress =
      [some 10, some 30, some 50, some 70, none] ∧
    some 55 ∉ (process_job true c5Exec "worker-0" c5Job 9).2.map JobEvent.progress ∧
    Option.map JobEvent.event_type
      (process_job true c5Exec "worker-0" c5Job 9).2.getLast? = some "error" := by
  decide

/-- C6: retrying a job found FAILED increments `retry_count` by exactly
1, resets progress to 0, clears `error_message` (with
`started_at`/`completed_at`, the only other fields the failed attempt
wrote) and re-enqueues the job as QUEUED, leaving all result fields as
they were; when `retry_count` has reached `max_retries` and force is
not set the request fails with the invalid-transition rejection and no
store change, while with force it succeeds. -/
theorem c6_retry_contract :
    ∀ (store : Store) (jobId : String) (force : Bool) (job : Job),
      getJob store jobId = some job →
      job.status = JobStatus.failed →
      ((job.retry_count < job.max_retries ∨ force = true) →
        ∃ store2, retry_job store jobId force = Except.ok store2 ∧
          getJob store2 jobId =
            some { job with
                status := JobStatus.queued
                error_message := none
                retry_count := job.retry_count + 1
                progress := 0
                started_at := none
                completed_at := none }) ∧
      (job.max_retries ≤ job.retry_count → force = false →
        retry_job store jobId force =
          Except.error
            (ApiError.invalidTransition "Job has exceeded maximum retry count")) := by
  intro store jobId force job hrow hfailed
  have hguard1 : ¬ (job.status ≠ JobStatus.failed) := by simp [hfailed]
  constructor
  · intro hallow
    have hguard2 : ¬ (job.max_retries ≤ job.retry_count ∧ force = false) := by
      rintro ⟨h1, h2⟩
      rcases hallow with h | h
      · omega
      · rw [h] at h2; cases h2
    simp only [retry_job, hrow]
    rw [if_neg hguard1, if_neg hguard2]
    refine ⟨_, rfl, ?_⟩
    rw [enqueue_job, update_job_status,
      getJob_updateRow
        (f := fun j =>
          { j with
              status := JobStatus.pending
              error_message := none
              retry_count := j.retry_count + 1
              progress := 0
              started_at := none
              completed_at := none })
        (fun _ => rfl),
      hrow, Option.map_some']
    rw [updateRow_updateRow
        (f := fun j =>
          { j with
              status := JobStatus.pending
              error_message := none
              retry_count := j.retry_count + 1
              progress := 0
              started_at := none
              completed_at := none })
        (fun _ => rfl)]
    rw [getJob_updateRow
        (f := fun j =>
          { ({ j with
              status := JobStatus.pending
              error_message := none
              retry_count := j.retry_count + 1
              progress := 0
              started_at := none
              completed_at := none } : Job) with
              status := JobStatus.queued })
        (fun _ => rfl),
      hrow, Option.map_some']
  · intro hmax hforce
    simp only [retry_job, hrow]
    rw [if_neg hguard1, if_pos ⟨hmax, hforce⟩]

/-- C6 witness: the retry contract evaluated on concrete one-job
stores: a first retry succeeds, a retry at the limit without force is
rejected, and the same retry with force succeeds. -/
theorem c6_retry_contract_witness :
    (∃ store2, retry_job [c6Job] "c6" false = Except.ok store2 ∧
      getJob store2 "c6" =
        some { c6Job with
            status := JobStatus.queued
            error_message := none
            retry_count := 1
            progress := 0
            started_at := none
            completed_at := none }) ∧
    retry_job [c6MaxJob] "c6m" false =
      Except.error
        (ApiError.invalidTransition "Job has exceeded maximum retry count") ∧
    (∃ store2, retry_job [c6MaxJob] "c6m" true = Except.ok store2 ∧
      getJob store2 "c6m" =
        some { c6MaxJob with
            status := JobStatus.queued
            error_message := none
            retry_count := 4
            progress := 0
            started_at := none
            completed_at := none }) :=
  ⟨(c6_retry_contract [c6Job] "c6" false c6Job (by decide) (by decide)).1
      (Or.inl (by decide)),
   (c6_retry_contract [c6MaxJob] "c6m" false c6MaxJob (by decide) (by decide)).2
      (by decide) rfl,
   (c6_retry_contract [c6MaxJob] "c6m" true c6MaxJob (by decide) (by decide)).1
      (Or.inr rfl)⟩

/-- C7: `cancel_job` succeeds exactly when the job exists with status
PENDING, QUEUED or PROCESSING, moving it to CANCELLED with
`completed_at` set and the reason recorded; a missing id or a terminal
status (COMPLETED, FAILED, CANCELLED) yields `false` and leaves the
store unchanged. -/
theorem c7_cancel_contract :
    ∀ (store : Store) (jobId : String) (reason : Option String) (now : Nat),
      ((cancel_job store jobId reason now).1 = true ↔
        ∃ j, getJob store jobId = some j ∧
          j.status ∈ [JobStatus.pending, JobStatus.queued, JobStatus.processing]) ∧
      ((cancel_job store jobId reason now).1 = false →
        (cancel_job store jobId reason now).2 = store) ∧
      (∀ j, getJob store jobId = some j →
        j.status ∈ [JobStatus.pending, JobStatus.queued, JobStatus.processing] →
        getJob (cancel_job store jobId reason now).2 jobId =
          some { j with
              status := JobStatus.cancelled
              completed_at := some now
              error_message :=
                match reason with
                | some s => some s
                | none => j.error_message }) := by
  intro store jobId reason now
  cases hrow : getJob store jobId with
  | none =>
      refine ⟨?_, ?_, ?_⟩
      · simp [cancel_job, hrow]
      · intro _
        simp [cancel_job, hrow]
      · intro j hj
        exact absurd hj (by simp)
  | some j =>
      by_cases hterm :
          j.status ∈ [JobStatus.completed, JobStatus.failed, JobStatus.cancelled]
      · have hnon :
            ¬ j.status ∈ [JobStatus.pending, JobStatus.queued, JobStatus.processing] := by
          simp only [List.mem_cons, List.not_mem_nil, or_false] at hterm
          rcases hterm with h | h | h <;> simp [h]
        refine ⟨?_, ?_, ?_⟩
        · constructor
          · intro htrue
            simp [cancel_job, hrow, hterm] at htrue
          · rintro ⟨j2, hj2, hmem⟩
            obtain rfl := Option.some.inj hj2
            exact absurd hmem hnon
        · intro _
          simp [cancel_job, hrow, hterm]
        · intro j2 hj2 hmem
          obtain rfl := Option.some.inj hj2
          exact absurd hmem hnon
      · have hstep : cancel_job store jobId reason now =
            (true, updateRow store jobId (fun r =>
              { r with
                  status := JobStatus.cancelled
                  completed_at := some now
                  error_message :=
                    match reason with
                    | some s => some s
                    | none => r.error_message })) := by
          simp only [cancel_job, hrow]
          rw [if_neg hterm]
        refine ⟨?_, ?_, ?_⟩
        · constructor
          · intro _
            have hnon :
                j.status ∈ [JobStatus.pending, JobStatus.queued, JobStatus.processing] := by
              cases hstat : j.status <;> simp_all
            exact ⟨j, rfl, hnon⟩
          · intro _
            rw [hstep]
        · intro hfalse
          rw [hstep] at hfalse
          cases hfalse
        · intro j2 hj2 _hmem
          obtain rfl := Option.some.inj hj2
          simp only [hstep]
          rw [getJob_updateRow ?hid]
          case hid => intro r; rfl
          rw [hrow, Option.map_some']

/-- C7 witness: the cancel contract evaluated on concrete one-job
stores: cancelling a PROCESSING job succeeds and records the reason;
cancelling a COMPLETED job fails and leaves the store unchanged. -/
theorem c7_cancel_contract_witness :
    (cancel_job [c7Job] "c7" (some "user request") 6).1 = true ∧
    getJob (cancel_job [c7Job] "c7" (some "user request") 6).2 "c7" =
      some { c7Job with
          status := JobStatus.cancelled
          completed_at := some 6
          error_message := some "user request" } ∧
    (cancel_job [c7DoneJob] "c7d" none 6).2 = [c7DoneJob] :=
  ⟨(c7_cancel_contract [c7Job] "c7" (some "user request") 6).1.mpr
      ⟨c7Job, by decide, by decide⟩,
   (c7_cancel_contract [c7Job] "c7" (some "user request") 6).2.2 c7Job
      (by decide) (by decide),
   (c7_cancel_contract [c7DoneJob] "c7d" none 6).2.1 (by decide)⟩

/-- C8: within one processing attempt of `_process_job`, the progress
values carried by the emitted events are monotonically non-decreasing
(the terminal error event carries none) and the job's stored progress
does not decrease either: it is left unchanged on failure and set to
100 on completion. -/
theorem c8_progress_monotone_within_attempt :
    ∀ (running : Bool) (exec : String → Except String Unit) (w : String)
      (job : Job) (now : Nat),
      job.progress ≤ 100 →
      List.Pairwise (fun p q => p ≤ q)
        ((process_job running exec w job now).2.filterMap JobEvent.progress) ∧
      job.progress ≤ (process_job running exec w job now).1.progress := by
  intro running exec w job now hp
  obtain ⟨r, hr⟩ :=
    runStages_events_take exec ({ job with worker_id := some w } : Job).id
      stages running
  cases herr :
      (runStages running exec ({ job with worker_id := some w } : Job).id stages).2 with
  | none =>
      constructor
      · simp only [process_job, herr]
        rw [hr]
        exact pairwise_progress_stages_take _ r
      · simp only [process_job, herr]
        exact hp
  | some e =>
      constructor
      · simp only [process_job, herr]
        rw [List.filterMap_append, hr]
        have hnil : ([mkErrorEvent
              ({ job with worker_id := some w } : Job).id e]).filterMap
            JobEvent.progress = [] := rfl
        rw [hnil, List.append_nil]
        exact pairwise_progress_stages_take _ r
      · simp only [process_job, herr]
        exact Nat.le_refl _

/-- C8 witness: the monotonicity statement evaluated on a concrete
successful attempt. -/
theorem c8_progress_monotone_within_attempt_witness :
    List.Pairwise (fun p q => p ≤ q)
      ((process_job true (fun _ => Except.ok ()) "worker-1" c8Job 8).2.filterMap
        JobEvent.progress) ∧
    c8Job.progress ≤
      (process_job true (fun _ => Except.ok ()) "worker-1" c8Job 8).1.progress :=
  c8_progress_monotone_within_attempt true (fun _ => Except.ok ()) "worker-1"
    c8Job 8 (by decide)

end VideoShorts
